import Mathlib

/-!
Shallow embedding of the pokerBench heads-up hold'em server
(Go sources: server/engine, server/elo_v2.go, server/main.go, judge),
with theorems checking the specification's claims against it.

Machine integers (Go `int`) are modelled as `Int`; Go `float64` is
modelled as `ℝ` (or `ℚ` where the code only does field arithmetic);
Go byte/rune values are modelled as `Nat` character codes; fallible
Go functions returning `error` are modelled with `Except String`.
-/

namespace Engine

/-- `Card` from server/engine/types.go: `Rank int`, `Suit byte`
(suit is the character code of one of `c`,`d`,`h`,`s`). -/
structure Card where
  rank : Int
  suit : Nat
deriving DecidableEq, Repr

instance : Inhabited Card := ⟨⟨0, 0⟩⟩

/-- `Seat` from server/engine/types.go (`"SB"`/`"BB"`). -/
inductive Seat where
  | SB
  | BB
deriving DecidableEq, Repr

/-- `ActionKind` from server/engine/types.go
(`"fold"`, `"check"`, `"call"`, `"raise"`). -/
inductive ActionKind where
  | fold
  | check
  | call
  | raise
deriving DecidableEq, Repr

/-- `Action` from server/engine/types.go. -/
structure Action where
  seat : Seat
  kind : ActionKind
  amount : Int
deriving DecidableEq, Repr

instance : Inhabited Action := ⟨⟨Seat.SB, ActionKind.fold, 0⟩⟩

/-- `Config` from the engine hand file: `SB, BB, StartStack int`. -/
structure Config where
  sb : Int
  bb : Int
  startStack : Int
deriving DecidableEq, Repr

/-- `Player` from the engine hand file. -/
structure Player where
  seat : Seat
  stack : Int
  committed : Int
  hole : List Card
  folded : Bool
  allIn : Bool
deriving DecidableEq, Repr

/-- `Hand` from the engine hand file.  The Go struct holds pointers
`SB, BB *Player`; here the two players are stored by value and the
mutating methods are modelled as state-passing functions. -/
structure Hand where
  id : String
  cfg : Config
  deck : List Card
  board : List Card
  pot : Int
  street : String
  sbP : Player
  bbP : Player
  toAct : Seat
  curBet : Int
  minRaise : Int
  history : List Action
deriving DecidableEq, Repr

/-- The player sitting in a given seat (dereferencing `h.SB` / `h.BB`). -/
def Hand.player (h : Hand) (s : Seat) : Player :=
  match s with
  | Seat.SB => h.sbP
  | Seat.BB => h.bbP

/-- Write back the player of a given seat. -/
def Hand.setPlayer (h : Hand) (s : Seat) (p : Player) : Hand :=
  match s with
  | Seat.SB => { h with sbP := p }
  | Seat.BB => { h with bbP := p }

/-- `(h *Hand) other(p)`: the opposite seat. -/
def Seat.other : Seat → Seat
  | Seat.SB => Seat.BB
  | Seat.BB => Seat.SB

/-- `(h *Hand) actor()`: the player whose turn it is. -/
def Hand.actor (h : Hand) : Player := h.player h.toAct

/-- `(h *Hand) bet(p, amt)` from the engine hand file: caps the amount
at the player's stack (setting `AllIn`), moves chips from stack to
committed, raises `CurBet` to the new committed amount if larger, and
adds the amount to the pot.  Here the player is identified by seat. -/
def Hand.betAmt (h : Hand) (s : Seat) (amt : Int) : Hand :=
  let p := h.player s
  let capped := amt ≥ p.stack
  let amt' := if capped then p.stack else amt
  let p' : Player :=
    { p with
      stack := p.stack - amt'
      committed := p.committed + amt'
      allIn := if capped then true else p.allIn }
  let h' := h.setPlayer s p'
  let h' := if p'.committed > h'.curBet then { h' with curBet := p'.committed } else h'
  { h' with pot := h'.pot + amt' }

/-- `(h *Hand) pop()`: take the top card of the deck.  The Go code
would panic on an empty deck; that unreachable case returns a default
card and leaves the deck empty. -/
def Hand.pop (h : Hand) : Card × Hand :=
  match h.deck with
  | [] => (default, h)
  | c :: rest => (c, { h with deck := rest })

/-- `(h *Hand) postBlinds()`: SB posts `Cfg.SB`, BB posts `Cfg.BB`. -/
def Hand.postBlinds (h : Hand) : Hand :=
  (h.betAmt Seat.SB h.cfg.sb).betAmt Seat.BB h.cfg.bb

/-- `(h *Hand) dealHole()`: two cards to SB, then two to BB. -/
def Hand.dealHole (h : Hand) : Hand :=
  let (c1, h) := h.pop
  let (c2, h) := h.pop
  let h := h.setPlayer Seat.SB { h.player Seat.SB with hole := [c1, c2] }
  let (c3, h) := h.pop
  let (c4, h) := h.pop
  h.setPlayer Seat.BB { h.player Seat.BB with hole := [c3, c4] }

/-- `NewHand(id, cfg, deck)` from the engine hand file: fresh players
with `StartStack`, street `preflop`, blinds posted, hole cards dealt,
SB to act first, `MinRaise = cfg.BB`. -/
def NewHand (id : String) (cfg : Config) (deck : List Card) : Hand :=
  let h : Hand :=
    { id := id, cfg := cfg, deck := deck, board := [], pot := 0, street := "preflop"
      sbP := { seat := Seat.SB, stack := cfg.startStack, committed := 0, hole := [],
               folded := false, allIn := false }
      bbP := { seat := Seat.BB, stack := cfg.startStack, committed := 0, hole := [],
               folded := false, allIn := false }
      toAct := Seat.SB, curBet := 0, minRaise := 0, history := [] }
  let h := h.postBlinds
  let h := h.dealHole
  { h with toAct := Seat.SB, minRaise := cfg.bb }

/-- `(h *Hand) Legal()` from the engine hand file. -/
def Hand.Legal (h : Hand) : List ActionKind :=
  let a := h.actor
  if a.folded || a.allIn then []
  else
    let toCall := h.curBet - a.committed
    let out : List ActionKind :=
      if toCall = 0 then [ActionKind.check] else [ActionKind.fold, ActionKind.call]
    if !a.allIn && !(h.player h.toAct.other).allIn then out ++ [ActionKind.raise] else out

/-- `(h *Hand) Apply(kind, amount)` from the engine hand file.
Note the Go `Fold` case returns before the `ToAct` flip at the end of
the switch, so folding does not pass the turn. -/
def Hand.Apply (h : Hand) (kind : ActionKind) (amount : Int) : Except String Hand :=
  let s := h.toAct
  let a := h.actor
  match kind with
  | ActionKind.fold =>
      let h := h.setPlayer s { a with folded := true }
      Except.ok { h with history := h.history ++ [Action.mk s ActionKind.fold 0] }
  | ActionKind.check =>
      if h.curBet - a.committed ≠ 0 then Except.error "cannot check"
      else
        let h := { h with history := h.history ++ [Action.mk s ActionKind.check 0] }
        Except.ok { h with toAct := s.other }
  | ActionKind.call =>
      let t := h.curBet - a.committed
      let t := if t < 0 then 0 else t
      let h := h.betAmt s t
      let h := { h with history := h.history ++ [Action.mk s ActionKind.call t] }
      Except.ok { h with toAct := s.other }
  | ActionKind.raise =>
      if amount < h.curBet + h.minRaise then Except.error "min raise"
      else
        let prevCur := h.curBet
        let raise := amount - a.committed
        let h := h.betAmt s raise
        let h := { h with minRaise := amount - prevCur }
        let h := { h with history := h.history ++ [Action.mk s ActionKind.raise amount] }
        Except.ok { h with toAct := s.other }

/-- `(h *Hand) bettingRoundDone()` from the engine hand file: done on
any fold or all-in; otherwise both players must have matched `CurBet`
and the last two recorded actions (across all streets) must both be
non-raises. -/
def Hand.bettingRoundDone (h : Hand) : Bool :=
  if h.sbP.folded || h.bbP.folded || h.sbP.allIn || h.bbP.allIn then true
  else
    let needSB := h.curBet - h.sbP.committed
    let needBB := h.curBet - h.bbP.committed
    if needSB = 0 ∧ needBB = 0 then
      let n := h.history.length
      decide (n ≥ 2) &&
        (h.history.getD (n - 1) default).kind ≠ ActionKind.raise &&
        (h.history.getD (n - 2) default).kind ≠ ActionKind.raise
    else false

/-- `(h *Hand) NextStreet()` from the engine hand file: deal the next
board card(s), reset `CurBet` and both `Committed` to 0, reset
`MinRaise` to the big blind, and set BB first to act (heads-up
postflop order). -/
def Hand.NextStreet (h : Hand) : Hand :=
  let h :=
    if h.street = "preflop" then
      let (c1, h) := h.pop
      let (c2, h) := h.pop
      let (c3, h) := h.pop
      { h with board := h.board ++ [c1, c2, c3], street := "flop" }
    else if h.street = "flop" then
      let (c, h) := h.pop
      { h with board := h.board ++ [c], street := "turn" }
    else if h.street = "turn" then
      let (c, h) := h.pop
      { h with board := h.board ++ [c], street := "river" }
    else h
  let h := { h with curBet := 0 }
  let h := h.setPlayer Seat.SB { h.player Seat.SB with committed := 0 }
  let h := h.setPlayer Seat.BB { h.player Seat.BB with committed := 0 }
  { h with minRaise := h.cfg.bb, toAct := Seat.BB }

/-- `(h *Hand) Done()` from the engine hand file. -/
def Hand.Done (h : Hand) : Bool :=
  (h.street = "river" && h.bettingRoundDone) || h.sbP.folded || h.bbP.folded ||
    h.sbP.allIn || h.bbP.allIn

end Engine

namespace Server

/-- The winner value used by `playHandMatch` in server/main.go: the Go
`engine.Seat` string is `"SB"`, `"BB"`, or `""` (tie), modelled as
`Option Engine.Seat` with `none` for the empty string. -/
abbrev Winner := Option Engine.Seat

/-- The hand-end payout block of `playHandMatch` (server/main.go,
`PAYOUT:` label): `pot := sbC.total + bbC.total`; the winner's bank
gains `pot` minus their own contribution and the loser's bank loses
their own contribution; on a tie the pot is split `pot/2` / `pot/2`
with the odd chip (`pot%2`) to the SB seat, each minus their own
contribution.  Go `/` and `%` truncate toward zero, modelled with
`Int.tdiv` / `Int.tmod`.  Returns the two banks after the transfer. -/
def payoutApply (winner : Winner) (sbTotal bbTotal sbBank bbBank : Int) : Int × Int :=
  let pot := sbTotal + bbTotal
  match winner with
  | some Engine.Seat.SB => (sbBank + (pot - sbTotal), bbBank - bbTotal)
  | some Engine.Seat.BB => (sbBank - sbTotal, bbBank + (pot - bbTotal))
  | none =>
      let half := pot.tdiv 2
      let rem := pot.tmod 2
      (sbBank + (half + rem - sbTotal), bbBank + (half - bbTotal))

/-- The deterministic fallback ladder of `playHandMatch`
(server/main.go, the `err != nil` branch after `askAction`): facing a
bet prefer call, else fold, else raise (keeping an already-present
amount, else the minimum raise-to), else check; not facing a bet
prefer check, else raise, else call, else fold; final default check. -/
def fallbackAction (legal : List String) (toCallFB minTo : Int) (amtPtr : Option Int) :
    String × Option Int :=
  let choose := fun (want : String) => legal.contains want
  if toCallFB > 0 then
    if choose "call" then ("call", none)
    else if choose "fold" then ("fold", none)
    else if choose "raise" then ("raise", some (amtPtr.getD minTo))
    else if choose "check" then ("check", none)
    else ("check", none)
  else
    if choose "check" then ("check", none)
    else if choose "raise" then ("raise", some (amtPtr.getD minTo))
    else if choose "call" then ("call", none)
    else if choose "fold" then ("fold", none)
    else ("check", none)

/-- The spec's description of the fallback: take the first action of
the preference ladder that is present in the legal set (minimum
raise-to as the raise amount); default to check. -/
def ladderFirst (legal : List String) (toCallFB minTo : Int) : String × Option Int :=
  let ladder : List String :=
    if toCallFB > 0 then ["call", "fold", "raise", "check"]
    else ["check", "raise", "call", "fold"]
  match ladder.find? (fun a => legal.contains a) with
  | some a => (a, if a = "raise" then some minTo else none)
  | none => ("check", none)

/-- `applyZeroProbePolicy` from server/main.go.  The configured
probability (read by `probeProbFromEnv`) is passed explicitly, and the
single `mrand.Float64()` draw an invocation can consume is passed as
`u` (the Go function reads the process-global `math/rand` source; the
two draw sites are in mutually exclusive branches). -/
def applyZeroProbePolicy (act : String) (amt : Option Int) (legal : List String)
    (minRaiseTo toCall : Int) (prob u : ℚ) : String × Option Int :=
  if toCall ≠ 0 then (act, amt)
  else if legal.contains "check" ∧ act = "raise" then
    if prob ≤ 0 then ("check", none)
    else if u ≥ prob then ("check", none)
    else ("raise", some (amt.getD minRaiseTo))
  else if legal.contains "raise" ∧ act = "check" then
    if prob > 0 ∧ u < prob then ("raise", some (amt.getD minRaiseTo))
    else (act, amt)
  else (act, amt)

/-- `Elo` from server/elo_v2.go. -/
structure Elo where
  A : ℝ
  B : ℝ
  K : ℝ
  games : Int
  accA : ℝ
  accB : ℝ

/-- `clamp` from server/elo_v2.go. -/
noncomputable def clamp (x lo hi : ℝ) : ℝ :=
  if x < lo then lo else if x > hi then hi else x

/-- `potScale` from server/elo_v2.go. -/
noncomputable def potScale (pot bb : Int) : ℝ :=
  if bb ≤ 0 ∨ pot ≤ 0 then 1
  else clamp ((pot : ℝ) / (2 * (bb : ℝ))) 0.5 3

/-- `mirrorWeight` from server/elo_v2.go. -/
noncomputable def mirrorWeight (potSum bb : Int) : ℝ :=
  if potSum ≤ 0 ∨ bb ≤ 0 then 1
  else clamp ((potSum : ℝ) / (2 * (bb : ℝ))) 0.6 3

/-- `decay` from server/elo_v2.go. -/
noncomputable def decay (games : Int) : ℝ := 1 / (1 + 0.01 * (games : ℝ))

/-- `(e Elo) expect()` from server/elo_v2.go. -/
noncomputable def Elo.expect (e : Elo) : ℝ × ℝ :=
  let ea := 1 / (1 + (10 : ℝ) ^ ((e.B - e.A) / 400))
  (ea, 1 - ea)

/-- `(e *Elo) UpdateFromMirror(chipsA, potSum, bb)` from
server/elo_v2.go; returns the updated state and the applied deltas
`(dA, dB)`. -/
noncomputable def Elo.UpdateFromMirror (e : Elo) (chipsA potSum bb : Int) :
    Elo × ℝ × ℝ :=
  let ea := e.expect.1
  let eb := e.expect.2
  let denom : ℝ := (potSum : ℝ)
  let denom := if denom ≤ 0 ∧ bb > 0 then 2 * (bb : ℝ) else denom
  let denom := if denom ≤ 0 then 1 else denom
  let scale := denom / 2
  let scale := if scale ≤ 0 then 1 else scale
  let norm := Real.tanh ((chipsA : ℝ) / (scale * 1.4))
  let bias := clamp ((e.accA - e.accB) * 0.35) (-0.2) 0.2
  let norm := clamp (norm + bias) (-0.999) 0.999
  let sA := 0.5 + 0.5 * norm
  let sB := 1 - sA
  let avgAcc := (e.accA + e.accB) * 0.5
  let volAdj := clamp (0.85 + 0.3 * avgAcc) 0.75 1.15
  let kEff := e.K * mirrorWeight potSum bb * volAdj * decay e.games
  let dA := kEff * (sA - ea)
  let dB := kEff * (sB - eb)
  ({ e with A := e.A + dA, B := e.B + dB, games := e.games + 1 }, dA, dB)

/-- `(e *Elo) UpdateHand(sa, sb, pot, bb, weightByPot)` from
server/elo_v2.go; returns the updated state and the applied deltas. -/
noncomputable def Elo.UpdateHand (e : Elo) (sa sb : ℝ) (pot bb : Int)
    (weightByPot : Bool) : Elo × ℝ × ℝ :=
  let ea := e.expect.1
  let eb := e.expect.2
  let k := if weightByPot then e.K * potScale pot bb else e.K
  let dA := k * (sa - ea)
  let dB := k * (sb - eb)
  ({ e with A := e.A + dA, B := e.B + dB }, dA, dB)

/-- `handScore` from server/main.go: win=1/loss=0 per model from the
winning seat, `0.5, 0.5` on a tie. -/
def handScore (w : Winner) (aWasSB : Bool) : ℝ × ℝ :=
  match w with
  | some Engine.Seat.SB => if aWasSB then (1, 0) else (0, 1)
  | some Engine.Seat.BB => if aWasSB then (0, 1) else (1, 0)
  | none => (0.5, 0.5)

end Server

namespace Server

/-- `g2Scale` from the Glicko-2 file (server side): 173.7178. -/
noncomputable def g2Scale : ℝ := 173.7178

/-- `q = ln(10)/400` from the Glicko-2 file. -/
noncomputable def q : ℝ := Real.log 10 / 400

/-- `pi2 = π²` from the Glicko-2 file. -/
noncomputable def pi2 : ℝ := Real.pi * Real.pi

/-- `Glicko2` state (public 1500-scale values). -/
structure Glicko2 where
  rating : ℝ
  rd : ℝ
  volatility : ℝ
  games : Int

/-- `toMuPhi` from the Glicko-2 file. -/
noncomputable def toMuPhi (r rd : ℝ) : ℝ × ℝ := ((r - 1500) / g2Scale, rd / g2Scale)

/-- `fromMuPhi` from the Glicko-2 file. -/
noncomputable def fromMuPhi (mu phi : ℝ) : ℝ × ℝ := (mu * g2Scale + 1500, phi * g2Scale)

/-- `g(phi)` from the Glicko-2 file. -/
noncomputable def g (phi : ℝ) : ℝ := 1 / Real.sqrt (1 + 3 * q * q * phi * phi / pi2)

/-- `gExp(mu, muj, phij)` from the Glicko-2 file. -/
noncomputable def gExp (mu muj phij : ℝ) : ℝ :=
  1 / (1 + Real.exp (-g phij * (mu - muj)))

/-- `OpponentResult` from the Glicko-2 file (the opponent's snapshot
and the aggregate score `S`). -/
structure OpponentResult where
  opp : Glicko2
  s : ℝ

/-- `(a *Glicko2) Age()` from the Glicko-2 file: the "no games this
period" step `phi* = sqrt(phi² + sigma²)`; rating stays the same. -/
noncomputable def Glicko2.age (a : Glicko2) : Glicko2 :=
  let muA := (toMuPhi a.rating a.rd).1
  let phiA := (toMuPhi a.rating a.rd).2
  let phiStar := Real.sqrt (phiA * phiA + a.volatility * a.volatility)
  { a with
    rating := (fromMuPhi muA phiStar).1
    rd := (fromMuPhi muA phiStar).2
    games := a.games + 1 }

open Classical in
/-- The `k *= 2` expansion loop inside `UpdateBatch`'s bracket search
(`for f(a2-k) < 0 && k < 1e6 { k *= 2 }`).  The fuel of 64 exceeds the
at most 20 doublings the `k < 1e6` bound allows from `k = 1`. -/
noncomputable def expandK (f : ℝ → ℝ) (a2 : ℝ) : Nat → ℝ → ℝ
  | 0, k => k
  | fuel + 1, k => if f (a2 - k) < 0 ∧ k < 1e6 then expandK f a2 fuel (k * 2) else k

open Classical in
/-- The Illinois/secant iteration inside `UpdateBatch`
(`for it := 0; it < 60 && |B-A| > 1e-6; it++`).  State is
`(A, B, fA, fB)`.  The Go NaN/Inf break guards can never fire in the
real-number model and are dropped. -/
noncomputable def illinois (f : ℝ → ℝ) : Nat → ℝ × ℝ × ℝ × ℝ → ℝ × ℝ × ℝ × ℝ
  | 0, st => st
  | fuel + 1, (A, B, fA, fB) =>
      if |B - A| > 1e-6 then
        let C := A + (A - B) * fA / (fB - fA)
        let fC := f C
        let A' := if fC * fB < 0 then B else A
        let fA' := if fC * fB < 0 then fB else fA
        illinois f fuel (A', C, fA', fC)
      else (A, B, fA, fB)

open Classical in
/-- `(a *Glicko2) UpdateBatch(results, tau)` from the Glicko-2 file:
with no results it just ages; otherwise the canonical Glicko-2
rating-period update (variance `v`, improvement `delta`, volatility
root-finding, then the new `mu`/`phi`). -/
noncomputable def Glicko2.updateBatch (a : Glicko2) (results : List OpponentResult)
    (tau : ℝ) : Glicko2 :=
  if results.length = 0 then a.age
  else
    let muA := (toMuPhi a.rating a.rd).1
    let phiA := (toMuPhi a.rating a.rd).2
    let sumG2E := (results.map (fun r =>
        let muB := (toMuPhi r.opp.rating r.opp.rd).1
        let phiB := (toMuPhi r.opp.rating r.opp.rd).2
        let gB := g phiB
        let Eab := gExp muA muB phiB
        gB * gB * Eab * (1 - Eab))).sum
    let sumGSE := (results.map (fun r =>
        let muB := (toMuPhi r.opp.rating r.opp.rd).1
        let phiB := (toMuPhi r.opp.rating r.opp.rd).2
        let gB := g phiB
        let Eab := gExp muA muB phiB
        gB * (r.s - Eab))).sum
    let v := 1 / (q * q * sumG2E)
    let delta := v * q * sumGSE
    if |delta| < 1e-12 then
      let phiStar := Real.sqrt (phiA * phiA + a.volatility * a.volatility)
      let phiNew := 1 / Real.sqrt (1 / (phiStar * phiStar) + 1 / v)
      let muNew := muA + phiNew * phiNew * q * sumGSE
      { a with
        rating := (fromMuPhi muNew phiNew).1
        rd := (fromMuPhi muNew phiNew).2
        games := a.games + 1 }
    else
      let a2 := Real.log (a.volatility * a.volatility)
      let f := fun (x : ℝ) =>
        let ex := Real.exp x
        ex * (delta * delta - phiA * phiA - v - ex) /
            (2 * (phiA * phiA + v + ex) * (phiA * phiA + v + ex)) -
          (x - a2) / (tau * tau)
      let B0 :=
        if delta * delta > phiA * phiA + v then Real.log (delta * delta - phiA * phiA - v)
        else a2 - expandK f a2 64 1
      let st := illinois f 60 (a2, B0, f a2, f B0)
      let newVol := Real.exp (st.2.1 / 2)
      let phiStar := Real.sqrt (phiA * phiA + newVol * newVol)
      let phiNew := 1 / Real.sqrt (1 / (phiStar * phiStar) + 1 / v)
      let muNew := muA + phiNew * phiNew * q * sumGSE
      { a with
        rating := (fromMuPhi muNew phiNew).1
        rd := (fromMuPhi muNew phiNew).2
        volatility := newVol
        games := a.games + 1 }

end Server

namespace Judge

/-- The exact-equity count of `EvaluateMatchMC` (judge file): over the
enumerated villain hands, `win` where the hero's 7-card score is
strictly better (lower is better in the poker library, so
`heroScore < vScore` counts a hero win), `tie` where equal, averaged
as `(win + 0.5*tie)/total`.  The enumeration of the remaining two-card
combinations and their `poker.Eval7` scores (an external library) is
abstracted as the list `villainScores` of the combos' scores. -/
def equityOf (heroScore : Int) (villainScores : List Int) : ℚ :=
  let total := villainScores.length
  let win := (villainScores.filter (fun v => heroScore < v)).length
  let tie := (villainScores.filter (fun v => heroScore = v)).length
  ((win : ℚ) + 0.5 * (tie : ℚ)) / (total : ℚ)

/-- The row written into `action_eval` for a facing-bet river decision
(the `r.ToCall > 0` arm of `EvaluateMatchMC`). -/
structure RiverEval where
  eq : ℚ
  evFold : ℚ
  evCall : ℚ
  bestAction : String
  evBest : ℚ
  evChosen : ℚ
  gapBB : ℚ
  isTop : Bool
deriving DecidableEq, Repr

/-- The facing-bet (`r.ToCall > 0`) evaluation of `EvaluateMatchMC`:
`bb` is defaulted to 100 when non-positive (as at the top of the Go
function), `eps = 0.15*bb`; `EV(fold) = 0`,
`EV(call) = eq*(pot+toCall) − (1−eq)*toCall`; best starts as call and
becomes fold only when `EV(fold) > EV(call)`; a chosen action (one of
`call`/`fold`) is top when `evBest − evChosen ≤ eps`. -/
def evalFacingBet (heroScore : Int) (villainScores : List Int) (pot toCall bbIn : Int)
    (chosenAction : String) : RiverEval :=
  let bb := if bbIn ≤ 0 then (100 : Int) else bbIn
  let eps : ℚ := 0.15 * (bb : ℚ)
  let eq := equityOf heroScore villainScores
  let P : ℚ := (pot : ℚ)
  let b : ℚ := (toCall : ℚ)
  let evFold : ℚ := 0
  let evCall : ℚ := eq * (P + b) - (1 - eq) * b
  let bestAction := if evFold > evCall then "fold" else "call"
  let evBest := if evFold > evCall then evFold else evCall
  let evChosen := if chosenAction = "call" then evCall else evFold
  let gap := (evBest - evChosen) / (bb : ℚ)
  let isTop := decide (evBest - evChosen ≤ eps)
  ⟨eq, evFold, evCall, bestAction, evBest, evChosen, gap, isTop⟩

end Judge

namespace Deck

/-- The suit bytes `"cdhs"` indexed by the outer loop of `NewDeck`
(server/engine/cards.go). -/
def suitChars : List Nat := [99, 100, 104, 115]

/-- The ordered 52-card deck `NewDeck` builds before shuffling:
for each suit in `cdhs`, ranks 2..14. -/
def baseDeck : List Engine.Card :=
  List.flatten (suitChars.map (fun su =>
    (List.range 13).map (fun k => Engine.Card.mk ((k : Int) + 2) su)))

/-- One Go swap statement `deck[i], deck[j] = deck[j], deck[i]`.
Out-of-range indices (which `r.Intn(i+1)` never produces) leave the
list unchanged instead of panicking. -/
def listSwap (l : List Engine.Card) (i j : Nat) : List Engine.Card :=
  match l.get? i, l.get? j with
  | some a, some b => (l.set i b).set j a
  | _, _ => l

/-- The Fisher–Yates loop of `NewDeck`:
`for i := len(deck)-1; i > 0; i-- { j := r.Intn(i + 1); swap }`.
The PRNG is abstracted as `draw : drawIndex → bound → value`, the
sequential stream of `Intn` results. -/
def shuffleGo (draw : Nat → Nat → Nat) (deck : List Engine.Card) : List Engine.Card :=
  let steps := ((List.range deck.length).reverse).filter (fun i => 0 < i)
  (steps.foldl
    (fun (st : List Engine.Card × Nat) i =>
      let j := draw st.2 (i + 1)
      (listSwap st.1 i j, st.2 + 1))
    (deck, 0)).1

/-- `NewDeck(seed)` from server/engine/cards.go.  A zero seed is
replaced by `time.Now().UnixNano()`, passed here explicitly as `now`;
`rand.New(rand.NewSource(seed))` (Go standard library, outside this
repository) is abstracted as a deterministic draw stream
`src : effectiveSeed → drawIndex → bound → value`. -/
def NewDeck (seed now : Int) (src : Int → Nat → Nat → Nat) : List Engine.Card :=
  let seed := if seed = 0 then now else seed
  shuffleGo (src seed) baseDeck

/-- A concrete deterministic draw stream standing in for the seeded Go
PRNG in counterexamples: different effective seeds give different
draw sequences, as the real generator does. -/
def srcEx : Int → Nat → Nat → Nat := fun s k n => (s.toNat + k) % n

end Deck

namespace Ex

/-- Concrete blinds/stack configuration for the worked hands. -/
def exCfg : Engine.Config := ⟨1, 2, 100⟩

/-- A concrete deck (9 cards suffice for the states used here). -/
def exDeck : List Engine.Card :=
  (List.range 9).map (fun k => Engine.Card.mk ((k : Int) + 2) 99)

/-- `NewHand` on the concrete configuration and deck. -/
def exH0 : Engine.Hand := Engine.NewHand "h" exCfg exDeck

/-- Run one `Apply`, keeping the state on error (the runs below are
shown error-free separately). -/
def applyD (h : Engine.Hand) (k : Engine.ActionKind) (amt : Int) : Engine.Hand :=
  match h.Apply k amt with
  | Except.ok h' => h'
  | Except.error _ => h

/-- After the SB limps (calls the blind). -/
def exH1 : Engine.Hand := applyD exH0 Engine.ActionKind.call 0

/-- After the BB checks behind: the preflop round is complete. -/
def exH2 : Engine.Hand := applyD exH1 Engine.ActionKind.check 0

/-- After `NextStreet` deals the flop. -/
def exH3 : Engine.Hand := exH2.NextStreet

/-- After the SB limps and the BB folds (the fold case of `Apply`
returns without passing the turn, so the BB stays the actor). -/
def exFold : Engine.Hand := applyD exH1 Engine.ActionKind.fold 0

/-- A concrete Elo state: equal ratings, `K = 32`, equal accuracies. -/
noncomputable def e0 : Server.Elo := ⟨1000, 1000, 32, 0, 0.5, 0.5⟩

/-- A concrete Glicko-2 state with zero volatility
(`NewGlicko2With(1500, 350, 0)`). -/
def a0 : Server.Glicko2 := ⟨1500, 350, 0, 0⟩

/-- A concrete Glicko-2 state at the standard defaults
(`NewGlicko2()`: rating 1500, RD 350, volatility 0.06). -/
noncomputable def a1 : Server.Glicko2 := ⟨1500, 350, 0.06, 0⟩

end Ex

/-!  Theorems.  Each claim of the specification gets one main theorem,
with a closed witness instantiation where the theorem has hypotheses,
and a closed counterexample where the claim as literally stated fails
on the code.  -/

/-- C1: the hand-end payout is zero-sum over the two banks for every
winner value and nonnegative contributions; the winner gains exactly
what the loser loses (pot minus own contribution = the other seat's
contribution), and a tied showdown with equal contributions returns
each seat exactly its own stake. -/
theorem payout_conserves_banks (winner : Server.Winner) (sbT bbT sbBank bbBank : Int)
    (hsb : 0 ≤ sbT) (hbb : 0 ≤ bbT) :
    ((Server.payoutApply winner sbT bbT sbBank bbBank).1 +
        (Server.payoutApply winner sbT bbT sbBank bbBank).2 = sbBank + bbBank) ∧
    (winner = some Engine.Seat.SB →
      (Server.payoutApply winner sbT bbT sbBank bbBank).1 = sbBank + bbT ∧
      (Server.payoutApply winner sbT bbT sbBank bbBank).2 = bbBank - bbT) ∧
    (winner = some Engine.Seat.BB →
      (Server.payoutApply winner sbT bbT sbBank bbBank).2 = bbBank + sbT ∧
      (Server.payoutApply winner sbT bbT sbBank bbBank).1 = sbBank - sbT) ∧
    (winner = none → sbT = bbT →
      (Server.payoutApply winner sbT bbT sbBank bbBank).1 = sbBank ∧
      (Server.payoutApply winner sbT bbT sbBank bbBank).2 = bbBank) := by
  have hpot : (0 : Int) ≤ sbT + bbT := by omega
  have htd : (sbT + bbT).tdiv 2 = (sbT + bbT) / 2 := Int.tdiv_eq_ediv hpot (by omega)
  have htm : (sbT + bbT).tmod 2 = (sbT + bbT) % 2 := Int.tmod_eq_emod hpot (by omega)
  rcases winner with _ | s
  · simp [Server.payoutApply, htd, htm]
    omega
  · cases s <;> simp [Server.payoutApply]

/-- C1 witness: a tied hand with equal contributions 3/3 on banks
10/20 conserves the total and returns each stake. -/
theorem payout_conserves_banks_witness :
    ((Server.payoutApply none 3 3 10 20).1 + (Server.payoutApply none 3 3 10 20).2 = 10 + 20) ∧
    (none = some Engine.Seat.SB →
      (Server.payoutApply (none : Server.Winner) 3 3 10 20).1 = 10 + 3 ∧
      (Server.payoutApply (none : Server.Winner) 3 3 10 20).2 = 20 - 3) ∧
    (none = some Engine.Seat.BB →
      (Server.payoutApply (none : Server.Winner) 3 3 10 20).2 = 20 + 3 ∧
      (Server.payoutApply (none : Server.Winner) 3 3 10 20).1 = 10 - 3) ∧
    (none = (none : Server.Winner) → (3 : Int) = 3 →
      (Server.payoutApply none 3 3 10 20).1 = 10 ∧
      (Server.payoutApply none 3 3 10 20).2 = 20) :=
  payout_conserves_banks none 3 3 10 20 (by decide) (by decide)

/-- Helper: the Elo expected score is 1/2 at equal ratings. -/
theorem elo_expect_equal (e : Server.Elo) (h : e.B = e.A) : e.expect.1 = 1 / 2 := by
  simp [Server.Elo.expect, h, Real.rpow_zero]
  norm_num

/-- C2 counterexample: `UpdateHand` with scores `sa = sb = 1` (allowed
by the claim's "any scores") applies `+16` to both ratings at equal
ratings with `K = 32`, so the deltas are not exact negatives. -/
theorem elo_updateHand_not_zero_sum :
    (Ex.e0.UpdateHand 1 1 10 2 false).2.1 ≠ -(Ex.e0.UpdateHand 1 1 10 2 false).2.2 := by
  have h : Ex.e0.expect.1 = 1 / 2 := elo_expect_equal Ex.e0 (by norm_num [Ex.e0])
  simp only [Server.Elo.UpdateHand, Server.Elo.expect] at *
  rw [h]
  norm_num [Ex.e0]

/-- C2 (amended): `UpdateFromMirror` deltas are exact negatives for
all inputs, and `UpdateHand` deltas are exact negatives whenever the
two scores sum to 1 (as at every call site via `handScore`). -/
theorem elo_update_zero_sum :
    (∀ (e : Server.Elo) (chipsA potSum bb : Int),
      (e.UpdateFromMirror chipsA potSum bb).2.1 = -(e.UpdateFromMirror chipsA potSum bb).2.2) ∧
    (∀ (e : Server.Elo) (sa sb : ℝ) (pot bb : Int) (w : Bool), sa + sb = 1 →
      (e.UpdateHand sa sb pot bb w).2.1 = -(e.UpdateHand sa sb pot bb w).2.2) := by
  constructor
  · intro e chipsA potSum bb
    simp only [Server.Elo.UpdateFromMirror, Server.Elo.expect]
    ring
  · intro e sa sb pot bb w hsum
    have hsb : sb = 1 - sa := by linarith
    subst hsb
    simp only [Server.Elo.UpdateHand, Server.Elo.expect]
    ring

/-- C2 witness: a win/loss hand score pair (1, 0) gives exactly
opposite deltas. -/
theorem elo_update_zero_sum_witness :
    (Ex.e0.UpdateHand 1 0 10 2 true).2.1 = -(Ex.e0.UpdateHand 1 0 10 2 true).2.2 :=
  elo_update_zero_sum.2 Ex.e0 1 0 10 2 true (by norm_num)

/-- C3 counterexample: a reachable state (SB limps, BB folds) whose
actor has folded: to-call is 0 yet `check` is absent, and `raise` is
absent although neither player is all-in. -/
theorem legal_not_characterized_when_folded :
    Ex.exFold.curBet - Ex.exFold.actor.committed = 0 ∧
    Engine.ActionKind.check ∉ Ex.exFold.Legal ∧
    Ex.exFold.actor.allIn = false ∧
    (Ex.exFold.player Ex.exFold.toAct.other).allIn = false ∧
    Engine.ActionKind.raise ∉ Ex.exFold.Legal := by decide

/-- C3 (amended): for a hand whose acting player has neither folded
nor gone all-in and has not committed beyond the current bet, `Legal`
contains `check` iff to-call is 0, `fold` and `call` iff to-call > 0,
and `raise` iff the opponent is not all-in. -/
theorem legal_characterization (h : Engine.Hand)
    (hf : h.actor.folded = false) (ha : h.actor.allIn = false)
    (hc : h.actor.committed ≤ h.curBet) :
    (Engine.ActionKind.check ∈ h.Legal ↔ h.curBet - h.actor.committed = 0) ∧
    (Engine.ActionKind.fold ∈ h.Legal ↔ 0 < h.curBet - h.actor.committed) ∧
    (Engine.ActionKind.call ∈ h.Legal ↔ 0 < h.curBet - h.actor.committed) ∧
    (Engine.ActionKind.raise ∈ h.Legal ↔ (h.player h.toAct.other).allIn = false) := by
  unfold Engine.Hand.Legal
  by_cases h0 : h.curBet - h.actor.committed = 0 <;>
    cases hb : (h.player h.toAct.other).allIn <;>
      simp [hf, ha, h0, hb] <;> omega

/-- C3 witness: the fresh hand (SB to act facing the blind gap). -/
theorem legal_characterization_witness :
    (Engine.ActionKind.check ∈ Ex.exH0.Legal ↔ Ex.exH0.curBet - Ex.exH0.actor.committed = 0) ∧
    (Engine.ActionKind.fold ∈ Ex.exH0.Legal ↔ 0 < Ex.exH0.curBet - Ex.exH0.actor.committed) ∧
    (Engine.ActionKind.call ∈ Ex.exH0.Legal ↔ 0 < Ex.exH0.curBet - Ex.exH0.actor.committed) ∧
    (Engine.ActionKind.raise ∈ Ex.exH0.Legal ↔
      (Ex.exH0.player Ex.exH0.toAct.other).allIn = false) :=
  legal_characterization Ex.exH0 (by decide) (by decide) (by decide)

/-- C4 counterexample: on the fresh hand (curBet 2, minRaise 2,
committed 1, stack 99) a raise-to of 101, above committed+stack = 100,
is accepted rather than rejected, so the error condition is not
"outside [currentBet+minRaise, committed+stack]". -/
theorem applyRaise_no_upper_bound :
    (Ex.exH0.Apply Engine.ActionKind.raise 101).isOk = true ∧
    Ex.exH0.actor.committed + Ex.exH0.actor.stack = 100 ∧ ((100 : Int) < 101) := by decide

/-- C4 (amended): `Apply(Raise, amount)` errors (leaving the state
unchanged) exactly when `amount < curBet + minRaise`; any accepted
raise sets `minRaise` to `amount - curBet`; a raise-to of exactly
`committed + stack` sets the acting player's all-in flag.  Amounts
above `committed + stack` are not rejected: the stake is capped at the
stack and the player is all-in. -/
theorem applyRaise_spec (h : Engine.Hand) (amount : Int) :
    ((h.Apply Engine.ActionKind.raise amount).isOk = true ↔
      h.curBet + h.minRaise ≤ amount) ∧
    (amount < h.curBet + h.minRaise → Ex.applyD h Engine.ActionKind.raise amount = h) ∧
    (h.curBet + h.minRaise ≤ amount →
      (Ex.applyD h Engine.ActionKind.raise amount).minRaise = amount - h.curBet ∧
      (amount = h.actor.committed + h.actor.stack →
        ((Ex.applyD h Engine.ActionKind.raise amount).player h.toAct).allIn = true)) := by
  refine ⟨?_, ?_, ?_⟩
  · by_cases hlt : amount < h.curBet + h.minRaise <;>
      simp [Engine.Hand.Apply, hlt, Except.isOk, Except.toBool] <;> omega
  · intro hlt
    simp [Ex.applyD, Engine.Hand.Apply, hlt]
  · intro hge
    have hlt : ¬ amount < h.curBet + h.minRaise := by omega
    constructor
    · cases hs : h.toAct <;>
        simp [Ex.applyD, Engine.Hand.Apply, hlt, Engine.Hand.betAmt, Engine.Hand.setPlayer,
          Engine.Hand.player, Engine.Hand.actor, hs]
    · intro hamt
      have hraise : amount - h.actor.committed ≥ h.actor.stack := by omega
      cases hs : h.toAct <;>
        simp [Ex.applyD, Engine.Hand.Apply, hlt, Engine.Hand.betAmt, Engine.Hand.setPlayer,
          Engine.Hand.player, Engine.Hand.actor, hs] at hraise ⊢ <;>
          split_ifs <;> simp_all

/-- C4 witness: a shove to exactly committed+stack = 100 on the fresh
hand is accepted, sets minRaise to 98, and flags the SB all-in. -/
theorem applyRaise_spec_witness :
    ((Ex.exH0.Apply Engine.ActionKind.raise 100).isOk = true ↔
      Ex.exH0.curBet + Ex.exH0.minRaise ≤ 100) ∧
    ((100 : Int) < Ex.exH0.curBet + Ex.exH0.minRaise →
      Ex.applyD Ex.exH0 Engine.ActionKind.raise 100 = Ex.exH0) ∧
    (Ex.exH0.curBet + Ex.exH0.minRaise ≤ 100 →
      (Ex.applyD Ex.exH0 Engine.ActionKind.raise 100).minRaise = 100 - Ex.exH0.curBet ∧
      ((100 : Int) = Ex.exH0.actor.committed + Ex.exH0.actor.stack →
        ((Ex.applyD Ex.exH0 Engine.ActionKind.raise 100).player Ex.exH0.toAct).allIn = true)) :=
  applyRaise_spec Ex.exH0 100

/-- Helper: a Go swap preserves the list length. -/
theorem listSwap_length (l : List Engine.Card) (i j : Nat) :
    (Deck.listSwap l i j).length = l.length := by
  unfold Deck.listSwap
  split <;> simp

/-- Helper: the Fisher-Yates loop preserves the deck length. -/
theorem shuffleGo_length (draw : Nat → Nat → Nat) (deck : List Engine.Card) :
    (Deck.shuffleGo draw deck).length = deck.length := by
  unfold Deck.shuffleGo
  suffices h : ∀ (steps : List Nat) (st : List Engine.Card × Nat),
      ((steps.foldl (fun (st : List Engine.Card × Nat) i =>
        (Deck.listSwap st.1 i (draw st.2 (i + 1)), st.2 + 1)) st).1).length = st.1.length by
    exact h _ _
  intro steps
  induction steps with
  | nil => intro st; rfl
  | cons a as ih => intro st; simp [List.foldl_cons, ih, listSwap_length]

/-- C5 counterexample: with seed 0 the code re-seeds from the clock,
so two decks built "from the same seed" 0 at different instants
differ (shown for the model draw stream). -/
theorem newDeck_zero_seed_not_deterministic :
    Deck.NewDeck 0 1 Deck.srcEx ≠ Deck.NewDeck 0 2 Deck.srcEx := by decide

/-- C5 (amended): for every nonzero seed, two decks built from that
seed are identical 52-card sequences regardless of the clock. -/
theorem newDeck_deterministic (seed now1 now2 : Int) (src : Int → Nat → Nat → Nat)
    (hs : seed ≠ 0) :
    Deck.NewDeck seed now1 src = Deck.NewDeck seed now2 src ∧
    (Deck.NewDeck seed now1 src).length = 52 := by
  constructor
  · unfold Deck.NewDeck
    simp [hs]
  · unfold Deck.NewDeck
    rw [shuffleGo_length]
    rfl

/-- C5 witness: seed 7 at two different instants. -/
theorem newDeck_deterministic_witness :
    (Deck.NewDeck 7 1 Deck.srcEx = Deck.NewDeck 7 2 Deck.srcEx ∧
      (Deck.NewDeck 7 1 Deck.srcEx).length = 52) :=
  newDeck_deterministic 7 1 2 Deck.srcEx (by decide)

/-- C6 counterexample: at zero volatility (constructible via
`NewGlicko2With`) an aging step leaves RD unchanged, so RD does not
strictly increase for every Glicko2 state. -/
theorem glicko_age_zero_vol_rd_unchanged :
    Ex.a0.age.rd = Ex.a0.rd ∧ Ex.a0.age.rating = Ex.a0.rating := by
  have hs : (0 : ℝ) < Server.g2Scale := by norm_num [Server.g2Scale]
  constructor
  · show Real.sqrt ((Ex.a0.rd / Server.g2Scale) * (Ex.a0.rd / Server.g2Scale) +
        Ex.a0.volatility * Ex.a0.volatility) * Server.g2Scale = Ex.a0.rd
    have h0 : Ex.a0.volatility = 0 := rfl
    have hrd : Ex.a0.rd = 350 := rfl
    rw [h0, hrd, mul_zero, add_zero,
      Real.sqrt_mul_self (le_of_lt (div_pos (by norm_num) hs))]
    field_simp
  · show (Ex.a0.rating - 1500) / Server.g2Scale * Server.g2Scale + 1500 = Ex.a0.rating
    field_simp

/-- C6 (amended): an update with zero opponent results
(`UpdateBatch []`) reduces to `Age`; it leaves the rating unchanged,
and when the volatility is nonzero the rating deviation strictly
increases, per the aging formula `phi* = sqrt(phi² + sigma²)`. -/
theorem glicko_age_only (a : Server.Glicko2) (tau : ℝ) (hv : a.volatility ≠ 0) :
    a.updateBatch [] tau = a.age ∧
    a.age.rating = a.rating ∧
    a.rd < a.age.rd ∧
    a.age.rd = Real.sqrt ((a.rd / Server.g2Scale) * (a.rd / Server.g2Scale) +
        a.volatility * a.volatility) * Server.g2Scale := by
  have hs : (0 : ℝ) < Server.g2Scale := by norm_num [Server.g2Scale]
  refine ⟨?_, ?_, ?_, rfl⟩
  · simp [Server.Glicko2.updateBatch]
  · show (a.rating - 1500) / Server.g2Scale * Server.g2Scale + 1500 = a.rating
    field_simp
  · show a.rd < Real.sqrt ((a.rd / Server.g2Scale) * (a.rd / Server.g2Scale) +
        a.volatility * a.volatility) * Server.g2Scale
    have habs : |a.rd / Server.g2Scale| = |a.rd| / Server.g2Scale := by
      rw [abs_div, abs_of_pos hs]
    have h1 : |a.rd / Server.g2Scale| <
        Real.sqrt ((a.rd / Server.g2Scale) * (a.rd / Server.g2Scale) +
          a.volatility * a.volatility) := by
      rw [← Real.sqrt_mul_self_eq_abs]
      apply Real.sqrt_lt_sqrt (mul_self_nonneg _)
      have : 0 < a.volatility * a.volatility := mul_self_pos.mpr hv
      linarith
    calc a.rd ≤ |a.rd| := le_abs_self _
      _ = |a.rd / Server.g2Scale| * Server.g2Scale := by
            rw [habs, div_mul_cancel₀ _ (ne_of_gt hs)]
      _ < Real.sqrt ((a.rd / Server.g2Scale) * (a.rd / Server.g2Scale) +
            a.volatility * a.volatility) * Server.g2Scale :=
          mul_lt_mul_of_pos_right h1 hs

/-- C6 witness: the default state (rating 1500, RD 350, sigma 0.06). -/
theorem glicko_age_only_witness :
    Ex.a1.updateBatch [] (1/2) = Ex.a1.age ∧
    Ex.a1.age.rating = Ex.a1.rating ∧
    Ex.a1.rd < Ex.a1.age.rd ∧
    Ex.a1.age.rd = Real.sqrt ((Ex.a1.rd / Server.g2Scale) * (Ex.a1.rd / Server.g2Scale) +
        Ex.a1.volatility * Ex.a1.volatility) * Server.g2Scale :=
  glicko_age_only Ex.a1 (1/2) (by norm_num [Ex.a1])

/-- Helper: equity is exactly 1 when the hero beats every enumerated
opponent combination. -/
theorem equityOf_all_win (heroScore : Int) (vs : List Int) (hne : vs ≠ [])
    (hwin : ∀ v ∈ vs, heroScore < v) : Judge.equityOf heroScore vs = 1 := by
  unfold Judge.equityOf
  have hw : vs.filter (fun v => decide (heroScore < v)) = vs :=
    List.filter_eq_self.mpr (fun v hv => decide_eq_true (hwin v hv))
  have ht : vs.filter (fun v => decide (heroScore = v)) = [] :=
    List.filter_eq_nil_iff.mpr (fun v hv => by simp [Int.ne_of_lt (hwin v hv)])
  have hn : (vs.length : ℚ) ≠ 0 := by
    have := List.length_pos.mpr hne
    positivity
  simp only [hw, ht, List.length_nil]
  push_cast
  field_simp

/-- C7: for a judged river decision facing a bet, when the hero beats
every remaining opponent combination the exact-enumeration equity is
1, EV(fold) = 0, EV(call) = pot + bet > EV(fold), the best action is
call, and a chosen call is marked top action. -/
theorem judge_river_unbeatable (heroScore : Int) (vs : List Int) (pot toCall bbIn : Int)
    (hne : vs ≠ []) (hwin : ∀ v ∈ vs, heroScore < v) (hp : 0 ≤ pot) (htc : 0 < toCall) :
    (Judge.evalFacingBet heroScore vs pot toCall bbIn "call").eq = 1 ∧
    (Judge.evalFacingBet heroScore vs pot toCall bbIn "call").evFold = 0 ∧
    (Judge.evalFacingBet heroScore vs pot toCall bbIn "call").evCall =
      (pot : ℚ) + (toCall : ℚ) ∧
    (Judge.evalFacingBet heroScore vs pot toCall bbIn "call").evFold <
      (Judge.evalFacingBet heroScore vs pot toCall bbIn "call").evCall ∧
    (Judge.evalFacingBet heroScore vs pot toCall bbIn "call").bestAction = "call" ∧
    (Judge.evalFacingBet heroScore vs pot toCall bbIn "call").isTop = true := by
  have heq := equityOf_all_win heroScore vs hne hwin
  have hb : (0 : ℚ) < (toCall : ℚ) := by exact_mod_cast htc
  have hP : (0 : ℚ) ≤ (pot : ℚ) := by exact_mod_cast hp
  simp only [Judge.evalFacingBet, heq]
  norm_num
  refine ⟨by linarith, fun hcontra => absurd hcontra (by linarith), ?_⟩
  rw [if_neg (not_lt.mpr (by linarith : (0 : ℚ) ≤ (pot : ℚ) + (toCall : ℚ)))]
  by_cases hc : bbIn ≤ 0
  · rw [if_pos hc]
    linarith
  · rw [if_neg hc]
    have hq : (0 : ℚ) < (bbIn : ℚ) := by exact_mod_cast (by omega : (0 : Int) < bbIn)
    linarith

/-- C7 witness: hero score 1 against remaining combos scoring 2 and 3
(lower is better), pot 10 facing a bet of 5 at bb 100. -/
theorem judge_river_unbeatable_witness :
    (Judge.evalFacingBet 1 [2, 3] 10 5 100 "call").eq = 1 ∧
    (Judge.evalFacingBet 1 [2, 3] 10 5 100 "call").evFold = 0 ∧
    (Judge.evalFacingBet 1 [2, 3] 10 5 100 "call").evCall = (10 : ℚ) + (5 : ℚ) ∧
    (Judge.evalFacingBet 1 [2, 3] 10 5 100 "call").evFold <
      (Judge.evalFacingBet 1 [2, 3] 10 5 100 "call").evCall ∧
    (Judge.evalFacingBet 1 [2, 3] 10 5 100 "call").bestAction = "call" ∧
    (Judge.evalFacingBet 1 [2, 3] 10 5 100 "call").isTop = true := by
  have h := judge_river_unbeatable 1 [2, 3] 10 5 100 (by decide)
    (by intro v hv; fin_cases hv <;> decide) (by decide) (by decide)
  exact_mod_cast h

/-- C8: the error-path fallback in `playHandMatch` picks exactly the
first available action of the deterministic ladder restricted to the
legal set (call, fold, min-raise, check when facing a bet; check,
min-raise, call, fold otherwise), with check as the final default. -/
theorem fallback_matches_ladder (legal : List String) (toCallFB minTo : Int) :
    Server.fallbackAction legal toCallFB minTo none = Server.ladderFirst legal toCallFB minTo := by
  by_cases htc : toCallFB > 0 <;>
    by_cases hcall : "call" ∈ legal <;>
      by_cases hfold : "fold" ∈ legal <;>
        by_cases hraise : "raise" ∈ legal <;>
          by_cases hcheck : "check" ∈ legal <;>
            simp [Server.fallbackAction, Server.ladderFirst, htc, hcall, hfold, hraise, hcheck,
              List.find?]

/-- C9 counterexample: with configured probability 0.35, to-call 0,
chosen action check and raise legal, two invocations that differ only
in the process-global RNG draw return different results, so the
policy is not a function of the claimed inputs alone. -/
theorem probe_policy_depends_on_rng :
    Server.applyZeroProbePolicy "check" none ["check", "raise"] 2 0 (35/100) (1/10) ≠
      Server.applyZeroProbePolicy "check" none ["check", "raise"] 2 0 (35/100) (9/10) := by
  norm_num [Server.applyZeroProbePolicy]
  intro h
  exact absurd h (by decide)

/-- C9 (amended): the probe policy is a pure function of its inputs
together with the single RNG draw; it is independent of the draw
whenever the configured probability is ≤ 0 or to-call is nonzero. -/
theorem probe_policy_deterministic (act : String) (amt : Option Int) (legal : List String)
    (minRaiseTo toCall : Int) (prob u1 u2 : ℚ) (h : prob ≤ 0 ∨ toCall ≠ 0) :
    Server.applyZeroProbePolicy act amt legal minRaiseTo toCall prob u1 =
      Server.applyZeroProbePolicy act amt legal minRaiseTo toCall prob u2 := by
  rcases h with hp | ht
  · simp only [Server.applyZeroProbePolicy]
    split_ifs <;> first | rfl | linarith
  · simp [Server.applyZeroProbePolicy, ht]

/-- C9 witness: probability 0 never flips a check into a probe raise,
whatever the draw. -/
theorem probe_policy_deterministic_witness :
    Server.applyZeroProbePolicy "check" none ["check", "raise"] 2 0 0 0 =
      Server.applyZeroProbePolicy "check" none ["check", "raise"] 2 0 0 (1/2) :=
  probe_policy_deterministic "check" none ["check", "raise"] 2 0 0 0 (1/2)
    (Or.inl (by norm_num))

/-- C10: after SB limp, BB check and `NextStreet` to the flop, with
the history unchanged (so zero actions on the new street) and both
per-street contributions reset to the zeroed current bet, the
cross-street `bettingRoundDone` already reports the flop round
complete before anyone has acted on it. -/
theorem nextStreet_round_already_done :
    Ex.exH0.Apply Engine.ActionKind.call 0 = Except.ok Ex.exH1 ∧
    Ex.exH1.Apply Engine.ActionKind.check 0 = Except.ok Ex.exH2 ∧
    Ex.exH3 = Ex.exH2.NextStreet ∧
    Ex.exH3.street = "flop" ∧
    Ex.exH3.history = Ex.exH2.history ∧
    Ex.exH3.history.getLast? = some (Engine.Action.mk Engine.Seat.BB Engine.ActionKind.check 0) ∧
    Ex.exH3.curBet = 0 ∧ Ex.exH3.sbP.committed = 0 ∧ Ex.exH3.bbP.committed = 0 ∧
    Ex.exH3.bettingRoundDone = true :=
  ⟨by rfl, by rfl, rfl, by decide, by decide, by decide, by decide, by decide, by decide,
    by decide⟩
